import Mathlib

/-!
Shallow embedding of the .NET API generator engine from
`utils/doclint/generateDotnetApi.js`: the type translator, the name
synthesizer, the registries and the method renderer, together with
theorems settling the specification claims about them.

Modelling conventions:
* JS `Map` objects become insertion-ordered association lists
  (`mapGet` / `mapSet` reproduce `Map.get` / `Map.set`).
* JS exceptions become `Except.error`; a JS runtime `TypeError`
  (for example reading a property of `undefined`) is modelled as
  `Except.error "TypeError"`.
* A JS value that may be `null`/`undefined` is an `Option`; string
  interpolation of `null` yields the literal text `null` (`jstr`).
* JS string truthiness (empty string is falsy) is `truthyOpt`.
-/

/-- Truthiness of an optional JS string: `undefined`/`null` and the empty
string are falsy, everything else is truthy. -/
def truthyOpt : Option String → Bool
  | some s => s != ""
  | none => false

/-- Template-literal interpolation of a JS string-or-null value:
`null` prints as the text `null`. -/
def jstr : Option String → String
  | some s => s
  | none => "null"

/-- Array.prototype.join element conversion: `null`/`undefined`
become the empty string. -/
def jsJoinElem : Option String → String
  | some s => s
  | none => ""

/-- JS `Map.get`: the entry with the given key, if any. -/
def mapGet {α : Type} : List (String × α) → String → Option α
  | [], _ => none
  | (a, b) :: t, k => if a == k then some b else mapGet t k

/-- JS `Map.set`: replace the value in place when the key exists
(keeping its position, as JS `Map` does), otherwise append.  Keys are
unique in every map built through `mapSet`, so replacing the first
occurrence is exact. -/
def mapSet {α : Type} : List (String × α) → String → α → List (String × α)
  | [], k, v => [(k, v)]
  | (a, b) :: t, k, v => if a == k then (k, v) :: t else (a, b) :: mapSet t k v

/-- First index at which `needle` occurs as a contiguous sublist of the
second list. -/
def listIndexOfSub (needle : List Char) : List Char → Option Nat
  | [] => if needle.isPrefixOf [] then some 0 else none
  | c :: t =>
    if needle.isPrefixOf (c :: t) then some 0
    else (listIndexOfSub needle t).map (fun i => i + 1)

/-- JS `String.prototype.includes` for a substring. -/
def includesStr (s sub : String) : Bool :=
  (listIndexOfSub sub.data s.data).isSome

/-- JS `String.prototype.startsWith`. -/
def strStartsWith (s pre : String) : Bool :=
  pre.data.isPrefixOf s.data

/-- JS `String.prototype.endsWith`. -/
def strEndsWith (s suf : String) : Bool :=
  suf.data.isSuffixOf s.data

/-- JS `String.prototype.toLowerCase` (ASCII, as used here). -/
def strToLower (s : String) : String :=
  String.mk (s.data.map Char.toLower)

/-- Drop the final character (`substring(0, length - 1)`). -/
def strDropLast (s : String) : String :=
  String.mk (s.data.take (s.data.length - 1))

/-- Drop the first character (`substring(1)`). -/
def strDropFirst (s : String) : String :=
  String.mk (s.data.drop 1)

/-- JS `split(' ')`: cut at every single space character. -/
def splitOnSpaceAux : List Char → List Char → List String
  | [], acc => [String.mk acc.reverse]
  | c :: t, acc =>
    if c == ' ' then String.mk acc.reverse :: splitOnSpaceAux t []
    else splitOnSpaceAux t (c :: acc)

/-- JS `split(' ')` on a string. -/
def splitOnSpace (s : String) : List String :=
  splitOnSpaceAux s.data []

mutual
/-- `Documentation.Type`: one node of the abstract type tree.  Fields mirror
the JS object: `name`, the canonical textual `expression` (possibly
`undefined`), and the optional `union` / `templates` / `properties` /
`args` / `returnType` components. -/
inductive DocType where
  | mk (name : String) (expression : Option String) (union : Option (List DocType))
      (templates : Option (List DocType)) (properties : Option (List Member))
      (args : Option (List DocType)) (returnType : Option DocType)

/-- `Documentation.Member`: a class member or parameter.  The documentation
payload (`spec`) is opaque to the engine and modelled as an optional list of
text lines. -/
inductive Member where
  | mk (kind : String) (name : String) (aliasName : Option String) (async : Bool)
      (required : Bool) (type : DocType) (argsArray : List Member)
      (spec : Option (List String))
end

/-- Accessor for the `name` field of a type node. -/
def DocType.name : DocType → String
  | .mk n _ _ _ _ _ _ => n

/-- Accessor for the canonical `expression` of a type node. -/
def DocType.expression : DocType → Option String
  | .mk _ e _ _ _ _ _ => e

/-- Accessor for the `union` variants of a type node. -/
def DocType.union : DocType → Option (List DocType)
  | .mk _ _ u _ _ _ _ => u

/-- Accessor for the `templates` (generic parameters) of a type node. -/
def DocType.templates : DocType → Option (List DocType)
  | .mk _ _ _ t _ _ _ => t

/-- Accessor for the structural `properties` of a type node. -/
def DocType.properties : DocType → Option (List Member)
  | .mk _ _ _ _ p _ _ => p

/-- Accessor for the function-type argument list of a type node. -/
def DocType.args : DocType → Option (List DocType)
  | .mk _ _ _ _ _ a _ => a

/-- Accessor for the function-type return type of a type node. -/
def DocType.returnType : DocType → Option DocType
  | .mk _ _ _ _ _ _ r => r

/-- Accessor for the `kind` of a member (`method`, `property`, `event`, ...). -/
def Member.kind : Member → String
  | .mk k _ _ _ _ _ _ _ => k

/-- Accessor for the source `name` of a member. -/
def Member.name : Member → String
  | .mk _ n _ _ _ _ _ _ => n

/-- Accessor for the optional display-name `alias` field of a member
(`alias` itself is a reserved word in this development). -/
def Member.aliasName : Member → Option String
  | .mk _ _ a _ _ _ _ _ => a

/-- Accessor for the `async` flag of a member. -/
def Member.async : Member → Bool
  | .mk _ _ _ a _ _ _ _ => a

/-- Accessor for the `required` flag of a member. -/
def Member.required : Member → Bool
  | .mk _ _ _ _ r _ _ _ => r

/-- Accessor for the `type` of a member. -/
def Member.type : Member → DocType
  | .mk _ _ _ _ _ t _ _ => t

/-- Accessor for the parameter list (`argsArray`) of a method member. -/
def Member.argsArray : Member → List Member
  | .mk _ _ _ _ _ _ a _ => a

/-- Accessor for the opaque documentation payload of a member. -/
def Member.spec : Member → Option (List String)
  | .mk _ _ _ _ _ _ _ s => s

/-- The enclosing class or type a member is rendered against; the engine
only ever reads its `name` and optional `alias`. -/
structure Parent where
  name : String
  aliasName : Option String

/-- JS `member.alias || member.name`. -/
def aliasOrName (m : Member) : String :=
  match m.aliasName with
  | some a => if a == "" then m.name else a
  | none => m.name

/-- JS `parent.alias || parent.name`. -/
def parentAliasOrName (p : Parent) : String :=
  match p.aliasName with
  | some a => if a == "" then p.name else a
  | none => p.name

/-- The `customTypeNames` override map seeded at startup
(irregular casing fixes applied during name synthesis and enum rendering). -/
def customTypeNames : List (String × String) :=
  [("domcontentloaded", "DOMContentLoaded"),
   ("networkidle", "NetworkIdle"),
   ("File", "FilePayload")]

/-- The `nullableTypes` list: primitive target types that take a `?` suffix
when optional. -/
def nullableTypes : List String :=
  ["int", "bool", "decimal", "float"]

/-- Global replacement of `HTTP` / `HTTPS` (regex `(HTTP[S]?)` with the
match lowered after its first letter) inside a character list, scanning
left to right with the longer alternative preferred, as the JS regex does. -/
def httpFix : List Char → List Char
  | [] => []
  | 'H' :: 'T' :: 'T' :: 'P' :: 'S' :: rest => 'H' :: 't' :: 't' :: 'p' :: 's' :: httpFix rest
  | 'H' :: 'T' :: 'T' :: 'P' :: rest => 'H' :: 't' :: 't' :: 'p' :: httpFix rest
  | c :: rest => c :: httpFix rest

/-- `toTitleCase`: special-cases `dblclick`, normalizes `HTTP(S)` runs and
upper-cases the first character. -/
def toTitleCase (name : String) : String :=
  if name == "dblclick" then "DblClick"
  else
    match (String.mk (httpFix name.data)).data with
    | [] => ""
    | c :: rest => String.mk (c.toUpper :: rest)

/-- `toMemberName`: title-cases the alias-or-name, puts `I` before
interfaces and appends `Async` to asynchronous methods unless suppressed
by the `omitAsync` option or already present. -/
def toMemberName (member : Member) (omitAsync : Bool) : String :=
  let assumedName := toTitleCase (aliasOrName member)
  if member.kind == "interface" then "I" ++ assumedName
  else if !omitAsync && member.kind == "method" && member.async
      && !(strEndsWith assumedName ("Async")) then
    assumedName ++ "Async"
  else assumedName

/-- `toArgumentName`: escapes the reserved parameter name `event`. -/
def toArgumentName (name : String) : String :=
  if name == "event" then "@" ++ name else name

/-- The `classNameMap` as built at startup: one `I<TitleCase>` entry per
documented class, then the hand-authored primitive/known-type overrides
from the source, applied with `Map.set` semantics. -/
def classNameMapOf (classNames : List String) : List (String × String) :=
  let m := (classNames.map (fun n => (n, "I" ++ toTitleCase n))).foldl
    (fun acc p => mapSet acc p.1 p.2) []
  let m := mapSet m ("Error") ("Exception")
  let m := mapSet m ("TimeoutError") ("TimeoutException")
  let m := mapSet m ("EvaluationArgument") ("object")
  let m := mapSet m ("boolean") ("bool")
  let m := mapSet m ("Serializable") ("T")
  let m := mapSet m ("any") ("object")
  let m := mapSet m ("Buffer") ("byte[]")
  let m := mapSet m ("path") ("string")
  let m := mapSet m ("URL") ("string")
  let m := mapSet m ("RegExp") ("Regex")
  let m := mapSet m ("Readable") ("Stream")
  m

/-- The three process-wide registries written during the translation pass:
`modelTypes`, `enumTypes` (pre-seeded with `MixedState`) and
`documentedResults`. -/
structure Registries where
  modelTypes : List (String × DocType)
  enumTypes : List (String × List String)
  documentedResults : List (String × String)

/-- Registries at the start of a generation run: only the seeded
`MixedState` enum is present. -/
def seededRegistries : Registries :=
  { modelTypes := [],
    enumTypes := [("MixedState", ["On", "Off", "Mixed"])],
    documentedResults := [] }

/-- Registries with every table empty (used by theorems that do not touch
the seeded enum). -/
def emptyRegistries : Registries :=
  { modelTypes := [], enumTypes := [], documentedResults := [] }

/-- Canonical serialization of an optional JS string, used by the
structural serializer below. -/
def serOptStr : Option String → String
  | none => "_"
  | some s => "s:" ++ s

mutual
/-- Canonical serialization of a type node (models `JSON.stringify` on the
tree: only equality and inequality of the produced strings is ever used). -/
def serDocType : DocType → String
  | .mk nm ex un tp pr ar rt =>
    "T(" ++ nm ++ ";" ++ serOptStr ex ++ ";" ++ serOptDocTypeList un ++ ";"
      ++ serOptDocTypeList tp ++ ";" ++ serOptMemberList pr ++ ";"
      ++ serOptDocTypeList ar ++ ";" ++ serOptDocType rt ++ ")"

/-- Serialization of an optional type node. -/
def serOptDocType : Option DocType → String
  | none => "_"
  | some t => serDocType t

/-- Serialization of an optional list of type nodes. -/
def serOptDocTypeList : Option (List DocType) → String
  | none => "_"
  | some l => "[" ++ serDocTypeList l ++ "]"

/-- Serialization of a list of type nodes. -/
def serDocTypeList : List DocType → String
  | [] => ""
  | t :: ts => serDocType t ++ "," ++ serDocTypeList ts

/-- Serialization of a member node. -/
def serMember : Member → String
  | .mk kd nm al asy req ty ag sp =>
    "M(" ++ kd ++ ";" ++ nm ++ ";" ++ serOptStr al ++ ";" ++ toString asy ++ ";"
      ++ toString req ++ ";" ++ serDocType ty ++ ";" ++ serMemberList ag ++ ";"
      ++ (match sp with | none => "_" | some l => String.intercalate ("|") l) ++ ")"

/-- Serialization of an optional list of members. -/
def serOptMemberList : Option (List Member) → String
  | none => "_"
  | some l => "[" ++ serMemberList l ++ "]"

/-- Serialization of a list of members. -/
def serMemberList : List Member → String
  | [] => ""
  | m :: ms => serMember m ++ "," ++ serMemberList ms
end

/-- Models `JSON.stringify(type.properties)` as used by the structural
comparison in the name synthesizer. -/
def serProps (p : Option (List Member)) : String :=
  serOptMemberList p

/-- The local `typesDiffer` helper of `generateNameDefault`: compare
canonical expressions when both are truthy, otherwise compare the
serialized `properties`. -/
def typesDiffer (left right : DocType) : Bool :=
  if truthyOpt left.expression && truthyOpt right.expression then
    left.expression != right.expression
  else
    serProps right.properties != serProps left.properties

/-- `generateEnumNameIfApplicable`: a union all of whose variants are
quoted string literals (or all but a leading `null`) is an enum and keeps
the union name; anything else yields `null`. -/
def generateEnumNameIfApplicable (t : DocType) : Option String :=
  match t.union with
  | none => none
  | some u =>
    let potentialValues := u.filter (fun v => strStartsWith v.name ("\""))
    if potentialValues.length != u.length
        && !((u.head?.map DocType.name) == some ("null")
          && potentialValues.length == u.length - 1) then
      none
    else
      some t.name

/-- `registerModelType`: skip the primitive escape names, skip names that
already exist, otherwise append the new model type. -/
def registerModelType (typeName : String) (t : DocType) (σ : Registries) : Registries :=
  if ["object", "string", "int"].contains typeName then σ
  else if (mapGet σ.modelTypes typeName).isSome then σ
  else { σ with modelTypes := mapSet σ.modelTypes typeName t }

/-- One step of the candidate rewriting inside the naming loop of
`generateNameDefault`: strip a trailing plural `s` (except for the fixed
plural-by-nature names), then apply the `customTypeNames` override if one
exists (JS truthiness: an empty override would be ignored). -/
def adjustCandidate (attempted : String) : String :=
  let a :=
    if strEndsWith attempted ("s")
        && !(["properties", "httpcredentials"].contains (strToLower attempted)) then
      strDropLast attempted
    else attempted
  match mapGet customTypeNames a with
  | some v => if v == "" then a else v
  | none => a

/-- The `while (true)` naming loop of `generateNameDefault`.  The stack
holds the not-yet-consumed lexical-chain candidates with the next one to
pop first (the JS code pops from the end of its `names` array).  On a
conflict (a structurally different type already owns the candidate, or the
candidate is the reserved word `Value`) the next stack element is prepended
and the loop retries; an empty stack is the fatal
`Ran out of possible names` error.  On success the type is registered
under the accepted name. -/
def gndLoop (t : DocType) : List String → String → Registries → Except String (String × Registries)
  | stack, attempted, σ =>
    let a := adjustCandidate attempted
    let probableType := mapGet σ.modelTypes a
    let conflict :=
      (match probableType with
       | some pt => typesDiffer t pt
       | none => false)
      || (["Value"].contains a)
    if conflict then
      match stack with
      | [] => .error ("Ran out of possible names: " ++ a)
      | n :: rest => gndLoop t rest (n ++ a) σ
    else
      .ok (a, { σ with modelTypes := mapSet σ.modelTypes a t })

/-- `generateNameDefault`: the name synthesizer.  A structureless
`[Object]` shape short-circuits to the generic `object` marker; an enum
union keeps its own name; otherwise methods and properties run the
candidate-stack naming loop, events get a `Payload` suffix, and anything
else falls back to the enum name or the type name. -/
def generateNameDefault (member : Member) (name : String) (t : DocType) (parent : Parent)
    (σ : Registries) : Except String (String × Registries) :=
  if t.properties.isNone && t.templates.isNone && t.union.isNone
      && t.expression == some ("[Object]") then
    .ok ("object", σ)
  else
    let enumName := generateEnumNameIfApplicable t
    if !(truthyOpt enumName) then
      if member.kind == "method" || member.kind == "property" then
        let names :=
          if toTitleCase name == toTitleCase (aliasOrName member) then
            [parentAliasOrName parent, toTitleCase (aliasOrName member)]
          else
            [parentAliasOrName parent, toTitleCase (aliasOrName member), toTitleCase name]
        match names.reverse with
        | attempted :: stack => gndLoop t stack attempted σ
        | [] => .error ("unreachable: the candidate stack is never empty")
      else if member.kind == "event" then
        .ok (name ++ "Payload", σ)
      else
        .ok (match enumName with | some e => if e == "" then t.name else e | none => t.name, σ)
    else
      .ok (match enumName with | some e => if e == "" then t.name else e | none => t.name, σ)

/-- The type of the `generateNameCallback` parameter of the translator: a
name fallback that may consult and update the registries, or fail. -/
def NameCB : Type :=
  DocType → Registries → Except String (String × Registries)

/-- The default name callback `t => t.name`. -/
def defaultNameCB : NameCB :=
  fun t σ => .ok (t.name, σ)

/-- The tail of the union handling in `translateType`, after the
two-variant null unwrap: the fixed special shapes
(`[string]|[Buffer]`, the underspecified string unions, the
value-or-array-of-value shape, `[float]|"raf"`) and finally the
named-union enum registration (`console.warn` diagnostics are I/O and
not modelled).  None of these cases recurses. -/
def translateUnionTail (t u0 : DocType) (urest : List DocType) (σ : Registries) :
    Except String (Option String × Registries) :=
  if t.expression == some ("[string]|[Buffer]") then
    .ok (some ("byte[]"), σ)
  else if t.expression == some ("[string]|[float]")
      || t.expression == some ("[string]|[float]|[boolean]") then
    .ok (some ("string"), σ)
  else do
    let isArrShape ←
      (match urest with
       | [u1] =>
         if u1.name == "Array" then
           match u1.templates with
           | some (e0 :: _) => Except.ok (e0.name == u0.name)
           | _ => Except.error ("TypeError")
         else Except.ok false
       | _ => Except.ok false)
    if isArrShape then
      .ok (some ("IEnumerable<" ++ u0.name ++ ">"), σ)
    else if t.expression == some ("[float]|\"raf\"") then
      .ok (some ("Polling"), σ)
    else if t.name != "" then
      .ok (some t.name,
        { σ with enumTypes := mapSet σ.enumTypes t.name ((u0 :: urest).map DocType.name) })
    else
      .ok (none, σ)

mutual
/-- `translateType`: map one type node to a target type expression (or
`null`, signalling that a union must be exploded), threading the
registries and the class-name map `cnm`.  The branch bodies live in the
mutually recursive helpers below, one per source branch. -/
def translateType (cnm : List (String × String)) (t : DocType) (parent : Parent)
    (cb : NameCB) (σ : Registries) : Except String (Option String × Registries) :=
  match t with
  | .mk _ _ un tmpl _ targs retT =>
    if t.expression == some ("[null]|[Error]") then .ok (some ("void"), σ)
    else if t.expression == some ("[boolean]|\"mixed\"") then .ok (some ("MixedState"), σ)
    else
      match un with
      | some u => translateUnionBranch cnm t u parent cb σ
      | none =>
        if t.name == "Array" then translateArrayBranch cnm t tmpl parent cb σ
        else if t.name == "Object" then translateObjectBranch cnm t tmpl parent cb σ
        else if t.name == "Map" then translateMapBranch cnm t tmpl parent cb σ
        else if t.name == "function" then
          match targs with
          | none => .ok (some ("Action"), σ)
          | some as =>
            if t.expression == some ("[function]") then .ok (some ("Action"), σ)
            else do
              let (results, σ1) ← translateTypeList cnm as parent cb σ
              if results.contains none then
                .error ("There was an argument we could not parse. Aborting.")
              else
                translateFunctionRet cnm (String.intercalate (", ") (results.map jstr))
                  retT parent cb σ1
        else translateGenericBranch cnm t tmpl parent cb σ
termination_by structural t

/-- The `type.union` branch of `translateType`: two-variant null unions
unwrap recursively, everything else goes to the non-recursive
`translateUnionTail`. -/
def translateUnionBranch (cnm : List (String × String)) (t : DocType) (u : List DocType)
    (parent : Parent) (cb : NameCB) (σ : Registries) :
    Except String (Option String × Registries) :=
  match u, parent, cb, σ with
  | [], _, _, _ => .error ("TypeError")
  | [u0, u1], parent, cb, σ =>
    if u0.name == "null" then translateType cnm u1 parent cb σ
    else translateUnionTail t u0 [u1] σ
  | [u0], _, _, σ => translateUnionTail t u0 [] σ
  | u0 :: u1 :: u2 :: urest, _, _, σ => translateUnionTail t u0 (u1 :: u2 :: urest) σ
termination_by structural u

/-- The `Array` branch of `translateType`: exactly one template succeeds
and wraps recursively, any other template count is the fatal dimension
error, absent templates crash as in JS. -/
def translateArrayBranch (cnm : List (String × String)) (t : DocType)
    (tmpl : Option (List DocType)) (parent : Parent) (cb : NameCB) (σ : Registries) :
    Except String (Option String × Registries) :=
  match tmpl, parent, cb, σ with
  | some [e], parent, cb, σ => do
    let (inner, σ1) ← translateType cnm e parent cb σ
    .ok (some ("IEnumerable<" ++ jstr inner ++ ">"), σ1)
  | some _, parent, _, _ =>
    .error ("Array (" ++ t.name ++ " from " ++ parent.name
      ++ ") has more than 1 dimension. Panic.")
  | none, _, _, _ => .error ("TypeError")
termination_by structural tmpl

/-- The `Object` branch of `translateType`: two templates become a
key/value sequence, a structureless object escapes to `object`, anything
else gets a synthesized name from the callback and is registered. -/
def translateObjectBranch (cnm : List (String × String)) (t : DocType)
    (tmpl : Option (List DocType)) (parent : Parent) (cb : NameCB) (σ : Registries) :
    Except String (Option String × Registries) :=
  match tmpl, parent, cb, σ with
  | some [k, v], parent, cb, σ => do
    let (kt, σ1) ← translateType cnm k parent cb σ
    let (vt, σ2) ← translateType cnm v parent cb σ1
    .ok (some ("IEnumerable<KeyValuePair<" ++ jstr kt ++ ", " ++ jstr vt ++ ">>"), σ2)
  | _, _, cb, σ =>
    if t.properties.isNone && t.union.isNone then
      .ok (some ("object"), σ)
    else do
      let (objectName, σ1) ← cb t σ
      if objectName == "Object" then .error ("Object unexpected")
      else if t.name == "Object" then
        .ok (some objectName, registerModelType objectName t σ1)
      else
        .ok (some objectName, σ1)
termination_by structural tmpl

/-- The `Map` branch of `translateType`: exactly two templates become a
dictionary, anything else is fatal. -/
def translateMapBranch (cnm : List (String × String)) (t : DocType)
    (tmpl : Option (List DocType)) (parent : Parent) (cb : NameCB) (σ : Registries) :
    Except String (Option String × Registries) :=
  match tmpl, parent, cb, σ with
  | some [k, v], parent, cb, σ => do
    let (kt, σ1) ← translateType cnm k parent cb σ
    let (vt, σ2) ← translateType cnm v parent cb σ1
    .ok (some ("Dictionary<" ++ jstr kt ++ ", " ++ jstr vt ++ ">"), σ2)
  | _, _, _, _ => .error ("Map has invalid number of templates.")
termination_by structural tmpl

/-- The return-type tail of the `function` branch of `translateType`:
no declared return type yields an `Action`, otherwise the translated
return type (fatal when it translates to `null`) ends a `Func`. -/
def translateFunctionRet (cnm : List (String × String)) (argsList : String)
    (retT : Option DocType) (parent : Parent) (cb : NameCB) (σ0 : Registries) :
    Except String (Option String × Registries) :=
  match retT, parent, cb, σ0 with
  | none, _, _, σ1 => .ok (some ("Action<" ++ argsList ++ ">"), σ1)
  | some rty, parent, cb, σ1 => do
    let (r, σ2) ← translateType cnm rty parent cb σ1
    if r == none then .error ("Unexpected null as return type.")
    else .ok (some ("Func<" ++ argsList ++ ", " ++ jstr r ++ ">"), σ2)
termination_by structural retT

/-- The generic-template and name-fallback tail of `translateType`. -/
def translateGenericBranch (cnm : List (String × String)) (t : DocType)
    (tmpl : Option (List DocType)) (parent : Parent) (cb : NameCB) (σ0 : Registries) :
    Except String (Option String × Registries) :=
  match tmpl, parent, cb, σ0 with
  | some ts, parent, _, σ => do
    let (types, σ1) ← translateTypeList cnm ts parent defaultNameCB σ
    .ok (some (t.name ++ "<" ++ String.intercalate (", ") (types.map jsJoinElem) ++ ">"), σ1)
  | none, _, _, σ =>
    let nm :=
      match mapGet cnm t.name with
      | some v => if v == "" then t.name else v
      | none => t.name
    .ok (some nm, σ)
termination_by structural tmpl

/-- Translate a list of type nodes left to right, threading the
registries, as the JS `Array.map` over `translateType` does. -/
def translateTypeList (cnm : List (String × String)) (ts : List DocType) (parent : Parent)
    (cb : NameCB) (σ0 : Registries) : Except String (List (Option String) × Registries) :=
  match ts, parent, cb, σ0 with
  | [], _, _, σ => .ok ([], σ)
  | t :: rest, parent, cb, σ => do
    let (r, σ1) ← translateType cnm t parent cb σ
    let (rs, σ2) ← translateTypeList cnm rest parent cb σ1
    .ok (r :: rs, σ2)
termination_by structural ts
end

/-- Modelled from the spec: `XmlDoc.renderTextOnly` belongs to the
out-of-scope documentation-rendering collaborator (spec §1, §6); it is
modelled as returning the opaque documentation payload unchanged and
nothing when the payload is absent. -/
def renderTextOnly : Option (List String) → List String
  | some l => l
  | none => []

/-- Modelled from the spec: `XmlDoc.renderXmlDoc` belongs to the
out-of-scope documentation-rendering collaborator (spec §1, §6); it is
modelled like `renderTextOnly`. -/
def renderXmlDoc : Option (List String) → List String
  | some l => l
  | none => []

/-- `printArgDoc`: one `<param>` line when the documentation has exactly
one line, an open/lines/close block otherwise.  Reading `.length` of an
absent documentation value is the JS `TypeError`. -/
def printArgDoc (name : Option String) (value : Option (List String)) :
    Except String (List String) :=
  match value with
  | none => .error ("TypeError")
  | some v =>
    match v with
    | [x] => .ok (["/// <param name=\"" ++ jstr name ++ "\">" ++ x ++ "</param>"])
    | _ => .ok (["/// <param name=\"" ++ jstr name ++ "\">"]
        ++ v.map (fun l => "/// " ++ l) ++ ["/// </param>"])

/-- Index of the last occurrence of a character in a list. -/
def lastIdxOf (c : Char) (l : List Char) : Option Nat :=
  (l.reverse.findIdx? (fun x => x == c)).map (fun k => l.length - 1 - k)

/-- The regex replacement
`replace(/\IEnumerable<(.*)\>/g, (m, v) => 'Enumerable' + v[0].toUpperCase() + v.substring(1))`
applied while exploding a union parameter.  The greedy `.*` runs to the
last `>` of the string, so at most one replacement happens; an empty
capture would crash in JS (`v[0]` of the empty string). -/
def replaceIEnum (s : String) : Except String String :=
  let cs := s.data
  match listIndexOfSub ("IEnumerable<".data) cs with
  | none => .ok s
  | some i =>
    let start := i + 12
    match lastIdxOf '>' cs with
    | some j =>
      if start ≤ j then
        match (cs.drop start).take (j - start) with
        | [] => .error ("TypeError")
        | c :: restInner =>
          .ok (String.mk (cs.take i ++ ("Enumerable").data
            ++ (c.toUpper :: restInner) ++ cs.drop (j + 1)))
      else .ok s
    | none => .ok s

/-- A word-character for the sanitizing regex (`\w`). -/
def isWordChar (c : Char) : Bool :=
  c.isAlphanum || c == '_'

/-- A character of the skipped leading run `[\s"']*`. -/
def isSkipChar (c : Char) : Bool :=
  c == ' ' || c == '\t' || c == '\n' || c == '\r' || c == '"' || c == '\''

/-- The match `nonGenericType.match(/(?<=^[\s"']*)(\w+)/g)[0]`: the first
word-character run after a leading run of whitespace and quotes.  When no
such run exists the JS `match` yields `null` and indexing it crashes. -/
def sanitizedArgNameOf (s : String) : Except String String :=
  match (s.data.dropWhile isSkipChar).takeWhile isWordChar with
  | [] => .error ("TypeError")
  | w => .ok (String.mk w)

/-- The mutable context of `renderMethod` while its arguments are
processed: the registries plus the `args`, `explodedArgs`, `argTypeMap`
and `paramDocs` collections. -/
structure ArgState where
  regs : Registries
  args : List String
  explodedArgs : List String
  argTypeMap : List (String × String)
  paramDocs : List (String × List String)

/-- `pushArg`: render one parameter into its `type name` form with the
optionality suffix, add it to `args` or `explodedArgs`, and remember its
name in `argTypeMap`. -/
def pushArg (innerArgType innerArgName : String) (argument : Member) (isExploded : Bool)
    (st : ArgState) : ArgState :=
  let isNullable := nullableTypes.contains innerArgType
  let requiredPfx :=
    if argument.required || isExploded then "" else if isNullable then "?" else ""
  let requiredSfx := if argument.required || isExploded then "" else " = default"
  let push := innerArgType ++ requiredPfx ++ " " ++ innerArgName ++ requiredSfx
  if isExploded then
    { st with explodedArgs := st.explodedArgs ++ [push],
              argTypeMap := mapSet st.argTypeMap push innerArgName }
  else
    { st with args := st.args ++ [push],
              argTypeMap := mapSet st.argTypeMap push innerArgName }

/-- `addParamsDoc`: strip a leading `@`, reject duplicate parameter keys
(fatal), record the documentation lines. -/
def addParamsDoc (paramName : String) (docs : List String) (st : ArgState) :
    Except String ArgState :=
  let paramName := if strStartsWith paramName ("@") then strDropFirst paramName else paramName
  if (mapGet st.paramDocs paramName).isSome then
    .error ("Parameter " ++ paramName ++ " already exists in the docs.")
  else
    .ok { st with paramDocs := mapSet st.paramDocs paramName docs }

/-- The non-`options` part of `processArg` (no recursion): the two
fixed dual-parameter union shapes, the generic union explosion, the
`timeout : decimal` special case and the plain push. -/
def processArgRest (cnm : List (String × String)) (member : Member) (parent : Parent)
    (st : ArgState) (arg : Member) : Except String ArgState :=
  if arg.type.expression == some ("[string]|[path]") then
    let argName := toArgumentName arg.name
    let st := pushArg ("string") (argName ++ " = null") arg false st
    let st := pushArg ("string") (argName ++ "Path = null") arg false st
    match arg.spec with
    | some sp => do
      let st ← addParamsDoc argName (renderTextOnly (some sp)) st
      addParamsDoc (argName ++ "Path")
        (["Instead of specifying <paramref name=\"" ++ argName
          ++ "\"/>, gives the file name to load from."]) st
    | none => .ok st
  else if arg.type.expression == some ("[boolean]|[Array]<[string]>") then
    match arg.type.union with
    | some (l :: r :: _) => do
      let argName := toArgumentName arg.name
      let (leftArgType, σ1) ← translateType cnm l parent
        (fun _ _ => .error ("Not supported")) st.regs
      let (rightArgType, σ2) ← translateType cnm r parent
        (fun _ _ => .error ("Not supported")) σ1
      let st := { st with regs := σ2 }
      let st := pushArg (jstr leftArgType) argName arg false st
      let st := pushArg (jstr rightArgType) (argName ++ "Values") arg false st
      let st ← addParamsDoc argName (renderTextOnly arg.spec) st
      addParamsDoc (argName ++ "Values")
        (["The values to take into account when <paramref name=\"" ++ argName
          ++ "\"/> is <code>true</code>."]) st
    | _ => .error ("TypeError")
  else do
    let argName := toArgumentName (aliasOrName arg)
    let (argType, σ1) ← translateType cnm arg.type parent
      (fun x σ => generateNameDefault member argName x parent σ) st.regs
    let st := { st with regs := σ1 }
    if argType == none && arg.type.union.isSome then
      match arg.type.union with
      | some u => do
        let (translatedArguments, σ2) ← translateTypeList cnm u parent
          (fun x σ => generateNameDefault member argName x parent σ) st.regs
        let st := { st with regs := σ2 }
        if translatedArguments.contains none then
          .error ("Unexpected null in translated argument types. Aborting.")
        else do
          let argDocumentation := renderTextOnly arg.spec
          let st ← translatedArguments.foldlM (fun st newArgOpt => do
            let newArg := jstr newArgOpt
            let nonGenericType ← replaceIEnum newArg
            let sanitizedArgName ← sanitizedArgNameOf nonGenericType
            let newArgName := argName ++
              (match sanitizedArgName.data with
               | [] => sanitizedArgName
               | c :: rest => String.mk (c.toUpper :: rest))
            let st := pushArg newArg newArgName arg true st
            addParamsDoc newArgName argDocumentation st) st
          .ok { st with args := st.args
            ++ [if arg.required then "EXPLODED_ARG" else "OPTIONAL_EXPLODED_ARG"] }
      | none => .error ("unreachable: the union was checked to be present")
    else do
      let st ← addParamsDoc argName (renderTextOnly arg.spec) st
      if argName == "timeout" && argType == some ("decimal") then
        .ok { st with args := st.args ++ ["int timeout = 0"] }
      else
        .ok (pushArg (jstr argType) argName arg false st)

mutual
/-- `processArg`: render one method parameter.  `options` bags are
flattened recursively; everything else is handled by the non-recursive
`processArgRest`. -/
def processArg (cnm : List (String × String)) (member : Member) (parent : Parent)
    (st : ArgState) : Member → Except String ArgState
  | arg@(.mk _ _ _ _ _ (.mk _ _ _ _ props _ _) _ _) =>
    if arg.name == "options" then
      match props with
      | some ps => processArgList cnm member parent st ps
      | none => .error ("TypeError")
    else processArgRest cnm member parent st arg

/-- Process the parameters of a method left to right, threading the
argument state, as the JS `forEach` over `processArg` does. -/
def processArgList (cnm : List (String × String)) (member : Member) (parent : Parent) :
    ArgState → List Member → Except String ArgState
  | st, [] => .ok st
  | st, a :: rest => do
    let st1 ← processArg cnm member parent st a
    processArgList cnm member parent st1 rest
end

/-- The `sort` comparator `(a, b) => b.alias === 'options' ? -1 : 0`
moving `options` bags to the back of the parameter list: a stable
partition keeping non-options parameters in declaration order. -/
def sortOptionsToBack (as : List Member) : List Member :=
  as.filter (fun a => !(a.aliasName == some ("options")))
    ++ as.filter (fun a => a.aliasName == some ("options"))

/-- The `resolveType` name callback of `renderMethod`: synthesize a
`<Parent><Member>Result` name and document it in `documentedResults`. -/
def resolveCB (member : Member) (parent : Parent) : NameCB :=
  fun _ σ =>
    let newName := parent.name ++ toMemberName member true ++ "Result"
    .ok (newName,
      { σ with documentedResults :=
          (mapSet σ.documentedResults newName
            ("Result of calling <see cref=\"I" ++ toTitleCase parent.name ++ "."
              ++ toMemberName member false ++ "\"/>.")) })

/-- The six display names excluded from the `WaitFor` action-argument
insertion. -/
def waitForExcluded : List String :=
  ["WaitForTimeoutAsync", "WaitForFunctionAsync", "WaitForLoadStateAsync",
   "WaitForURLAsync", "WaitForSelectorAsync", "WaitForElementStateAsync"]

/-- The synthesized `WaitFor` helper parameter. -/
def waitForActionArg : String :=
  "Func<Task> action = default"

/-- The `WaitFor` insertion
`args.splice(args.indexOf(args.find(a => a.includes('='))), 0, 'Func<Task> action = default')`:
insert before the first argument containing `=`; when no argument
contains `=`, `find` yields `undefined`, `indexOf` yields `-1`, and
`splice(-1, 0, x)` inserts before the *last* element (at position zero
of an empty list). -/
def insertWaitForAction (args : List String) : List String :=
  match args.findIdx? (fun a => a.data.contains '=') with
  | some i => args.take i ++ [waitForActionArg] ++ args.drop i
  | none =>
    args.take (args.length - 1) ++ [waitForActionArg] ++ args.drop (args.length - 1)

/-- Documentation lines of `printArgDoc` for one argument looked up via
`argTypeMap` and `paramDocs`, as done in the overloaded emission. -/
def argDocOf (st : ArgState) (arg : String) : Except String (List String) :=
  let an := mapGet st.argTypeMap arg
  printArgDoc an (match an with | some k => mapGet st.paramDocs k | none => none)

/-- `renderMethod`: translate the return type (with the Object/Array
preprocessing), convert simple getters to read-only properties, wrap
asynchronous return types in `Task`, process the arguments, insert the
`WaitFor` action parameter, and emit either the single signature or one
overload per exploded argument plus the filtered overload for optional
exploded unions.  Returns the emitted lines and the final registries. -/
def renderMethod (cnm : List (String × String)) (member : Member) (parent : Parent)
    (name : String) (σ : Registries) : Except String (List String × Registries) := do
  let (type0, σ) ←
    (if member.type.name == "Object" || member.type.name == "Array" then do
      let (innerType, isArray) ←
        (if member.type.name == "Array" then
          match member.type.templates with
          | some (i0 :: _) => Except.ok (i0, true)
          | _ => Except.error ("TypeError")
        else Except.ok (member.type, false))
      if innerType.expression == some ("[Object]<[string], [string]>") then
        Except.ok ((none : Option String), σ)
      else if !isArray && innerType.properties.isNone then
        Except.ok (some ("dynamic"), σ)
      else do
        let t0 := mapGet cnm innerType.name
        let (t1, σ1) ←
          (if truthyOpt t0 then Except.ok (t0, σ)
           else translateType cnm innerType parent (resolveCB member parent) σ)
        if isArray then
          Except.ok (some ("IReadOnlyCollection<" ++ jstr t1 ++ ">"), σ1)
        else
          Except.ok (t1, σ1)
    else Except.ok ((none : Option String), σ))
  let (type1, σ) ←
    (if truthyOpt type0 then Except.ok (type0, σ)
     else translateType cnm member.type parent (resolveCB member parent) σ)
  if member.argsArray.isEmpty && type1 != some ("void")
      && !(strStartsWith name ("Get")) && !(strStartsWith name ("As"))
      && !member.async then
    let out := (if member.spec.isSome then renderXmlDoc member.spec else [])
      ++ [jstr type1 ++ " " ++ name ++ " \x7b get; \x7d"]
    .ok (out, σ)
  else
    let name := if type1 == some ("T") then name ++ "<T>" else name
    let type2 :=
      if member.async then
        if type1 == some ("void") then some ("Task")
        else some ("Task<" ++ jstr type1 ++ ">")
      else type1
    let st0 : ArgState :=
      { regs := σ, args := [], explodedArgs := [], argTypeMap := [], paramDocs := [] }
    let st ← processArgList cnm member parent st0 (sortOptionsToBack member.argsArray)
    let st ←
      (if includesStr name ("WaitFor") && !(waitForExcluded.contains name) then do
        let st := { st with args := insertWaitForAction st.args,
                            argTypeMap := mapSet st.argTypeMap waitForActionArg ("action") }
        addParamsDoc ("action") (["Action to perform while waiting"]) st
      else Except.ok st)
    if st.explodedArgs.isEmpty then do
      let docLines ← st.paramDocs.foldlM (fun acc kv => do
        let lines ← printArgDoc (some kv.1) (some kv.2)
        Except.ok (acc ++ lines)) []
      .ok (renderXmlDoc member.spec ++ docLines
        ++ [jstr type2 ++ " " ++ name ++ "(" ++ String.intercalate (", ") st.args ++ ");"],
        st.regs)
    else do
      let (outAll, containsOpt) ← (st.explodedArgs.enum).foldlM (fun acc ie => do
        let (out0, copt0) := acc
        let argIndex := ie.1
        let explodedArg := ie.2
        let scan ← st.args.foldlM (fun sacc arg => do
          let (copt, dlines, overloaded) := sacc
          if arg == "EXPLODED_ARG" || arg == "OPTIONAL_EXPLODED_ARG" then do
            let lines ← argDocOf st explodedArg
            Except.ok (arg == "OPTIONAL_EXPLODED_ARG", dlines ++ lines,
              overloaded ++ [explodedArg])
          else do
            let lines ← argDocOf st arg
            Except.ok (copt, dlines ++ lines, overloaded ++ [arg]))
          (copt0, ([] : List String), ([] : List String))
        let (copt1, dlines, overloadedArgs) := scan
        let sig := jstr type2 ++ " " ++ name ++ "("
          ++ String.intercalate (", ") overloadedArgs ++ ");"
        let blank := if argIndex < st.explodedArgs.length - 1 then [""] else []
        Except.ok (out0 ++ renderXmlDoc member.spec ++ dlines ++ [sig] ++ blank, copt1))
        (([] : List String), false)
      let filteredTail ←
        (if containsOpt then do
          let filteredArgs := st.args.filter (fun x => x != "OPTIONAL_EXPLODED_ARG")
          let dlines ← filteredArgs.foldlM (fun acc arg => do
            if arg == "EXPLODED_ARG" then
              Except.error ("Unsupported required union arg combined an optional union inside "
                ++ member.name)
            else do
              let lines ← argDocOf st arg
              Except.ok (acc ++ lines)) ([] : List String)
          Except.ok (renderXmlDoc member.spec ++ dlines
            ++ [jstr type2 ++ " " ++ name ++ "("
              ++ String.intercalate (", ") filteredArgs ++ ");"])
        else Except.ok ([] : List String))
      .ok (outAll ++ filteredTail, st.regs)

/-- The method-declaration lines among some emitted lines: exactly those
ending in a semicolon (documentation lines end in `>` and separators are
blank). -/
def methodSignatures (out : List String) : List String :=
  out.filter (fun l => strEndsWith l (";"))

/-- The quote stripping `literal.replace(/[\"]/g, '')` of `renderEnum`. -/
def dequote (s : String) : String :=
  String.mk (s.data.filter (fun c => c != '"'))

/-- `word[0].toUpperCase() + word.substring(1)`: fails on the empty word
exactly where JS reads `undefined[0]`. -/
def capitalizeWord (w : String) : Except String String :=
  match w.data with
  | [] => .error ("TypeError")
  | c :: rest => .ok (String.mk (c.toUpper :: rest))

/-- One word of an enum member name: the `customTypeNames` override if
truthy, otherwise the capitalized word. -/
def escapeEnumWord (w : String) : Except String String :=
  match mapGet customTypeNames w with
  | some v => if v == "" then capitalizeWord w else .ok v
  | none => capitalizeWord w

/-- The two body lines `renderEnum` emits for one literal: the
`EnumMember` attribute carrying the de-quoted literal, and the escaped
member name (dashes become word breaks). -/
def renderEnumLiteralLines (literal : String) : Except String (List String) := do
  let lit := dequote literal
  let words := splitOnSpace (String.mk (lit.data.map (fun c => if c == '-' then ' ' else c)))
  let escaped ← words.mapM escapeEnumWord
  let escapedName := String.join escaped
  .ok (["[EnumMember(Value = \"" ++ lit ++ "\")]", escapedName ++ ","])

/-- The body of an enum declaration as `renderEnum` builds it: the
`Undefined` zero member followed by the per-literal line pairs (the
file wrapper produced by `writeFile` is out-of-scope I/O). -/
def renderEnumBody (literals : List String) : Except String (List String) := do
  let latter ← literals.foldlM (fun acc l => do
    let lines ← renderEnumLiteralLines l
    Except.ok (acc ++ lines)) ([] : List String)
  .ok ("Undefined = 0," :: latter)

/-- A type node carrying only a name and an optional expression. -/
def namedType (n : String) (e : Option String) : DocType :=
  DocType.mk n e none none none none none

/-- The `[string]` primitive node. -/
def stringType : DocType := namedType ("string") (some ("[string]"))

/-- The `[int]` primitive node. -/
def intType : DocType := namedType ("int") (some ("[int]"))

/-- The `[boolean]` primitive node (named `bool` in the tree). -/
def boolType : DocType := namedType ("bool") (some ("[boolean]"))

/-- The `[null]` absence marker node. -/
def nullType : DocType := namedType ("null") (some ("[null]"))

/-- The `[Error]` node (mapped to the target exception base type). -/
def errType : DocType := namedType ("Error") (some ("[Error]"))

/-- The `[void]` node. -/
def voidType : DocType := namedType ("void") (some ("[void]"))

/-- The class-name map of a run whose input declares no classes: exactly
the hand-authored overrides. -/
def seededClassNameMap : List (String × String) := classNameMapOf []

/-- A parent class for concrete scenarios. -/
def pageParent : Parent := ⟨"Page", none⟩

/-- A named two-variant union of non-literal primitives
(`Foo: int|bool`), matching no special shape. -/
def fooUnion : DocType :=
  DocType.mk ("Foo") (some ("[int]|[bool]")) (some [intType, boolType]) none none none none

/-- The quoted string literal variant `"load"`. -/
def quotedLoad : DocType := namedType ("\"load\"") none

/-- The quoted string literal variant `"save"`. -/
def quotedSave : DocType := namedType ("\"save\"") none

/-- A named union of two quoted string literals (`E: "load"|"save"`). -/
def enumE : DocType :=
  DocType.mk ("E") (some ("\"load\"|\"save\"")) (some [quotedLoad, quotedSave]) none none none none

/-- A two-variant union whose first variant is the null marker and whose
second is a quoted string literal. -/
def nullLoadUnion : DocType :=
  DocType.mk ("E2") none (some [nullType, quotedLoad]) none none none none

/-- The union `Union[null, Error]`, carrying its canonical expression. -/
def nullErrorUnion : DocType :=
  DocType.mk ("") (some ("[null]|[Error]")) (some [nullType, errType]) none none none none

/-- The union `Union[null, string]`, carrying its canonical expression. -/
def nullStringUnion : DocType :=
  DocType.mk ("") (some ("[null]|[string]")) (some [nullType, stringType]) none none none none

/-- An `Array` node with zero template parameters. -/
def arrZero : DocType := DocType.mk ("Array") none none (some []) none none none

/-- An `Array` node of one `string` element. -/
def arrString : DocType := DocType.mk ("Array") none none (some [stringType]) none none none

/-- An `Array` node whose single element is itself a two-template
`Array` (so the recursive translation of the element fails). -/
def arrNested : DocType :=
  DocType.mk ("Array") none none
    (some [DocType.mk ("Array") none none (some [stringType, intType]) none none none])
    none none none

/-- The required parameter `id : string`. -/
def idParam : Member :=
  Member.mk ("property") ("id") none false true stringType [] none

/-- The anonymous union `string|int` used as a parameter type; the
translator resolves it to `null`. -/
def stringOrIntUnion : DocType :=
  DocType.mk ("") (some ("[string]|[int]")) (some [stringType, intType]) none none none none

/-- The parameter `value : string|int`, required or optional. -/
def valueParam (req : Bool) : Member :=
  Member.mk ("property") ("value") none false req stringOrIntUnion [] none

/-- A method `foo(id, value)` with `value` of union type. -/
def fooMethod (req : Bool) : Member :=
  Member.mk ("method") ("foo") none false true voidType [idParam, valueParam req] none

/-- A required `string` parameter with an arbitrary name. -/
def strParam (n : String) : Member :=
  Member.mk ("property") n none false true stringType [] none

/-- An optional `string` parameter with an arbitrary name. -/
def optStrParam (n : String) : Member :=
  Member.mk ("property") n none false false stringType [] none

/-- An asynchronous `waitForThing(a, b)` method whose parameters are all
required. -/
def waitForThingMethod : Member :=
  Member.mk ("method") ("waitForThing") none true true voidType
    [strParam ("a"), strParam ("b")] none

/-- An asynchronous `waitForThing(a, c?)` method with one optional
parameter. -/
def waitForThing2Method : Member :=
  Member.mk ("method") ("waitForThing") none true true voidType
    [strParam ("a"), optStrParam ("c")] none

/-- An anonymous object type with the given canonical expression (the
candidate for model-type naming). -/
def objWithExpr (e : String) : DocType :=
  DocType.mk ("Object") (some e) none none (some []) none none

/-- A `config` property member of the given type. -/
def configMember (t : DocType) : Member :=
  Member.mk ("property") ("config") none false true t [] none

/-- The `string|path` union parameter `script`. -/
def scriptParam : Member :=
  Member.mk ("property") ("script") none false true
    (DocType.mk ("") (some ("[string]|[path]")) (some [stringType, namedType ("path") none])
      none none none none) [] none

/-- An argument state with no processed arguments over the given
registries. -/
def emptyArgState (σ : Registries) : ArgState :=
  { regs := σ, args := [], explodedArgs := [], argTypeMap := [], paramDocs := [] }

/-- Looking up the key just set returns the new value. -/
theorem mapGet_mapSet_self {α : Type} (m : List (String × α)) (k : String) (v : α) :
    mapGet (mapSet m k v) k = some v := by
  induction m with
  | nil => simp [mapGet, mapSet]
  | cons p t ih =>
    obtain ⟨a, b⟩ := p
    by_cases h : a = k <;> simp [mapGet, mapSet, h, ih]

/-- Setting one key leaves every other key unchanged. -/
theorem mapGet_mapSet_ne {α : Type} (m : List (String × α)) (k n : String) (v : α)
    (h : n ≠ k) : mapGet (mapSet m k v) n = mapGet m n := by
  induction m with
  | nil => simp [mapGet, mapSet, h, Ne.symm h]
  | cons p t ih =>
    obtain ⟨a, b⟩ := p
    by_cases ha : a = k
    · subst ha
      simp [mapGet, mapSet, Ne.symm h]
    · by_cases hn : a = n <;> simp [mapGet, mapSet, ha, hn, h, ih]

/-- Setting the same key to the same value twice equals setting it once. -/
theorem mapSet_mapSet_same {α : Type} (m : List (String × α)) (k : String) (v : α) :
    mapSet (mapSet m k v) k v = mapSet m k v := by
  induction m with
  | nil => simp [mapSet]
  | cons p t ih =>
    obtain ⟨a, b⟩ := p
    by_cases h : a = k <;> simp [mapSet, h, ih]

/-- Past the fixed special shapes, the union tail resolves to the union
name (registering it in the enum registry) when the name is nonempty,
and to `null` otherwise. -/
theorem translateUnionTail_plain (t u0 : DocType) (urest : List DocType) (σ : Registries)
    (h3 : t.expression ≠ some ("[string]|[Buffer]"))
    (h4 : t.expression ≠ some ("[string]|[float]"))
    (h5 : t.expression ≠ some ("[string]|[float]|[boolean]"))
    (h6 : t.expression ≠ some ("[float]|\"raf\""))
    (harr : ∀ u1, urest = [u1] → u1.name ≠ "Array") :
    translateUnionTail t u0 urest σ =
      if t.name = "" then .ok (none, σ)
      else .ok (some t.name,
        { σ with enumTypes := mapSet σ.enumTypes t.name ((u0 :: urest).map DocType.name) }) := by
  rcases urest with _ | ⟨u1, _ | ⟨u2, us⟩⟩
  · simp [translateUnionTail, h3, h4, h5, h6, Except.instMonad, Except.bind]
  · have hA := harr u1 rfl
    simp [translateUnionTail, h3, h4, h5, h6, hA, Except.instMonad, Except.bind]
  · simp [translateUnionTail, h3, h4, h5, h6, Except.instMonad, Except.bind]

/-- Past the fixed special shapes, a union resolves to its own name
(registering it as an enum) when it has one, and to `null` otherwise:
the `translateUnionBranch` part. -/
theorem translateUnionBranch_plain (cnm : List (String × String)) (t u0 : DocType)
    (urest : List DocType) (parent : Parent) (cb : NameCB) (σ : Registries)
    (h3 : t.expression ≠ some ("[string]|[Buffer]"))
    (h4 : t.expression ≠ some ("[string]|[float]"))
    (h5 : t.expression ≠ some ("[string]|[float]|[boolean]"))
    (h6 : t.expression ≠ some ("[float]|\"raf\""))
    (hnull : ¬(u0.name = "null" ∧ urest.length = 1))
    (harr : ∀ u1, urest = [u1] → u1.name ≠ "Array") :
    translateUnionBranch cnm t (u0 :: urest) parent cb σ =
      if t.name = "" then .ok (none, σ)
      else .ok (some t.name,
        { σ with enumTypes := mapSet σ.enumTypes t.name ((u0 :: urest).map DocType.name) }) := by
  rcases urest with _ | ⟨u1, _ | ⟨u2, us⟩⟩
  · rw [translateUnionBranch]
    exact translateUnionTail_plain _ _ _ _ h3 h4 h5 h6 harr
  · have hn : ¬(u0.name = "null") := fun hcon => hnull ⟨hcon, rfl⟩
    have bn : (u0.name == "null") = false := by simp [hn]
    rw [translateUnionBranch]
    simp only [bn, Bool.false_eq_true, if_false]
    exact translateUnionTail_plain _ _ _ _ h3 h4 h5 h6 harr
  · rw [translateUnionBranch]
    exact translateUnionTail_plain _ _ _ _ h3 h4 h5 h6 harr

/-- Past the expression shortcuts and the fixed special shapes, a union
type resolves to its own name if it has one (registering the enum), and
to `null` otherwise. -/
theorem translateType_plain_union (cnm : List (String × String)) (t u0 : DocType)
    (urest : List DocType) (parent : Parent) (cb : NameCB) (σ : Registries)
    (h1 : t.expression ≠ some ("[null]|[Error]"))
    (h2 : t.expression ≠ some ("[boolean]|\"mixed\""))
    (h3 : t.expression ≠ some ("[string]|[Buffer]"))
    (h4 : t.expression ≠ some ("[string]|[float]"))
    (h5 : t.expression ≠ some ("[string]|[float]|[boolean]"))
    (h6 : t.expression ≠ some ("[float]|\"raf\""))
    (hu : t.union = some (u0 :: urest))
    (hnull : ¬(u0.name = "null" ∧ urest.length = 1))
    (harr : ∀ u1, urest = [u1] → u1.name ≠ "Array") :
    translateType cnm t parent cb σ =
      if t.name = "" then .ok (none, σ)
      else .ok (some t.name,
        { σ with enumTypes := mapSet σ.enumTypes t.name ((u0 :: urest).map DocType.name) }) := by
  have b1 : (t.expression == some ("[null]|[Error]")) = false := by simp [h1]
  have b2 : (t.expression == some ("[boolean]|\"mixed\"")) = false := by simp [h2]
  obtain ⟨nm, ex, un, tm, pr, ar, rt⟩ := t
  simp only [DocType.union] at hu
  subst hu
  rw [translateType.eq_def]
  simp only [b1, b2, Bool.false_eq_true, if_false]
  exact translateUnionBranch_plain cnm _ u0 urest parent cb σ h3 h4 h5 h6 hnull harr

/-- C1: for a union past the fixed-expression shortcuts and the fixed
special shapes (null-unwrap pair, `Buffer`/`float` string unions,
second-variant `Array` shape, `raf`), `translateType` returns the
union's own declared name — registering the variant names under it in
the enum registry — if and only if the union carries a nonempty name,
and `null` otherwise.  The quoted-string-literal test of
`generateEnumNameIfApplicable` plays no part in this decision. -/
theorem translateType_names_any_named_union (cnm : List (String × String)) (t u0 : DocType)
    (urest : List DocType) (parent : Parent) (cb : NameCB) (σ : Registries)
    (h1 : t.expression ≠ some ("[null]|[Error]"))
    (h2 : t.expression ≠ some ("[boolean]|\"mixed\""))
    (h3 : t.expression ≠ some ("[string]|[Buffer]"))
    (h4 : t.expression ≠ some ("[string]|[float]"))
    (h5 : t.expression ≠ some ("[string]|[float]|[boolean]"))
    (h6 : t.expression ≠ some ("[float]|\"raf\""))
    (hu : t.union = some (u0 :: urest))
    (hnull : ¬(u0.name = "null" ∧ urest.length = 1))
    (harr : ∀ u1, urest = [u1] → u1.name ≠ "Array") :
    (t.name ≠ "" → translateType cnm t parent cb σ =
      .ok (some t.name,
        { σ with enumTypes := mapSet σ.enumTypes t.name ((u0 :: urest).map DocType.name) }))
    ∧ (t.name = "" → translateType cnm t parent cb σ = .ok (none, σ)) := by
  have h := translateType_plain_union cnm t u0 urest parent cb σ h1 h2 h3 h4 h5 h6 hu hnull harr
  constructor
  · intro h0
    rw [h, if_neg h0]
  · intro h0
    rw [h, if_pos h0]

/-- C1 (counterexample to the claim as stated): the named union
`Foo: int|bool` has no quoted-string-literal variant — by the code's own
`generateEnumNameIfApplicable` test it is not a literal-union enum — yet
`translateType` does not return `null`: it registers `Foo = [int, bool]`
in the enum registry and returns `Foo`. -/
theorem translateType_names_any_named_union_counterexample :
    ((translateType seededClassNameMap fooUnion pageParent defaultNameCB emptyRegistries).map
      (fun r => (r.1, r.2.enumTypes))
      = .ok (some ("Foo"), [("Foo", ["int", "bool"])]))
    ∧ generateEnumNameIfApplicable fooUnion = none :=
  ⟨rfl, rfl⟩

/-- C1 (witness): the amended theorem applied to the concrete union
`Foo: int|bool`. -/
theorem translateType_names_any_named_union_witness :
    translateType seededClassNameMap fooUnion pageParent defaultNameCB emptyRegistries =
      .ok (some fooUnion.name,
        { emptyRegistries with enumTypes :=
            (mapSet emptyRegistries.enumTypes fooUnion.name
              ([intType, boolType].map DocType.name)) }) :=
  (translateType_names_any_named_union seededClassNameMap fooUnion intType [boolType]
    pageParent defaultNameCB emptyRegistries
    (by decide) (by decide) (by decide) (by decide) (by decide) (by decide) rfl
    (by decide)
    (by intro u1 h; simp at h; subst h; decide)).1 (by decide)

/-- C5: a two-variant union whose first variant is the null marker
unwraps to the translation of its second variant — provided the union's
canonical expression escapes the fixed-expression shortcuts that are
checked first. -/
theorem translateType_null_unwrap (cnm : List (String × String)) (t n0 x : DocType)
    (parent : Parent) (cb : NameCB) (σ : Registries)
    (hu : t.union = some [n0, x])
    (hn : n0.name = "null")
    (h1 : t.expression ≠ some ("[null]|[Error]"))
    (h2 : t.expression ≠ some ("[boolean]|\"mixed\"")) :
    translateType cnm t parent cb σ = translateType cnm x parent cb σ := by
  have b1 : (t.expression == some ("[null]|[Error]")) = false := by simp [h1]
  have b2 : (t.expression == some ("[boolean]|\"mixed\"")) = false := by simp [h2]
  obtain ⟨nm, ex, un, tm, pr, ar, rt⟩ := t
  simp only [DocType.union] at hu
  subst hu
  rw [translateType.eq_def]
  simp only [b1, b2, Bool.false_eq_true, if_false]
  rw [translateUnionBranch]
  simp [hn]

/-- C5 (counterexample to the claim as stated): `Union[null, Error]`
carries the canonical expression `[null]|[Error]`, which hits the
fixed shortcut to `void` before the null-unwrap rule, while translating
`Error` directly yields `Exception` — so translating `Union[null, X]`
does not always equal translating `X`. -/
theorem translateType_null_unwrap_counterexample :
    (translateType seededClassNameMap nullErrorUnion pageParent defaultNameCB emptyRegistries
      = .ok (some ("void"), emptyRegistries))
    ∧ (translateType seededClassNameMap errType pageParent defaultNameCB emptyRegistries
      = .ok (some ("Exception"), emptyRegistries))
    ∧ nullErrorUnion.union = some [nullType, errType]
    ∧ nullType.name = "null"
    ∧ errType.union = none
    ∧ translateType seededClassNameMap nullErrorUnion pageParent defaultNameCB emptyRegistries
      ≠ translateType seededClassNameMap errType pageParent defaultNameCB emptyRegistries := by
  refine ⟨rfl, rfl, rfl, rfl, rfl, ?_⟩
  intro h
  rw [show translateType seededClassNameMap nullErrorUnion pageParent defaultNameCB emptyRegistries
      = .ok (some ("void"), emptyRegistries) from rfl,
    show translateType seededClassNameMap errType pageParent defaultNameCB emptyRegistries
      = .ok (some ("Exception"), emptyRegistries) from rfl] at h
  simp at h

/-- C5 (witness): the amended theorem applied to `Union[null, string]`. -/
theorem translateType_null_unwrap_witness :
    translateType seededClassNameMap nullStringUnion pageParent defaultNameCB emptyRegistries
      = translateType seededClassNameMap stringType pageParent defaultNameCB emptyRegistries :=
  translateType_null_unwrap seededClassNameMap nullStringUnion nullType stringType
    pageParent defaultNameCB emptyRegistries rfl rfl (by decide) (by decide)

/-- C6 (amended): for an `Array` node past the expression shortcuts,
translation fails when the template count differs from one (zero or
many templates raise the dimension error, absent templates crash), and
with exactly one template it returns the sequence wrapper around the
recursive translation of the element — succeeding exactly when that
recursive translation succeeds. -/
theorem translateType_array_shape (cnm : List (String × String)) (t : DocType)
    (parent : Parent) (cb : NameCB) (σ : Registries)
    (hname : t.name = "Array")
    (h1 : t.expression ≠ some ("[null]|[Error]"))
    (h2 : t.expression ≠ some ("[boolean]|\"mixed\""))
    (hu : t.union = none) :
    (t.templates = none → translateType cnm t parent cb σ = .error ("TypeError"))
    ∧ (∀ ts, t.templates = some ts → ts.length ≠ 1 →
        translateType cnm t parent cb σ =
          .error ("Array (" ++ t.name ++ " from " ++ parent.name
            ++ ") has more than 1 dimension. Panic."))
    ∧ (∀ e, t.templates = some [e] →
        translateType cnm t parent cb σ =
          (translateType cnm e parent cb σ).map
            (fun r => (some ("IEnumerable<" ++ jstr r.1 ++ ">"), r.2))) := by
  have b1 : (t.expression == some ("[null]|[Error]")) = false := by simp [h1]
  have b2 : (t.expression == some ("[boolean]|\"mixed\"")) = false := by simp [h2]
  obtain ⟨nm, ex, un, tm, pr, ar, rt⟩ := t
  simp only [DocType.union] at hu
  simp only [DocType.name] at hname
  subst hu
  subst hname
  refine ⟨?_, ?_, ?_⟩
  · intro htm
    simp only [DocType.templates] at htm
    subst htm
    rw [translateType.eq_def]
    simp only [DocType.name, b1, b2, Bool.false_eq_true, if_false, beq_self_eq_true, if_true]
    try rw [translateArrayBranch]
    all_goals simp [DocType.name]
  · intro ts htm hlen
    simp only [DocType.templates] at htm
    subst htm
    rw [translateType.eq_def]
    simp only [DocType.name, b1, b2, Bool.false_eq_true, if_false, beq_self_eq_true, if_true]
    rcases ts with _ | ⟨e, _ | ⟨e2, es⟩⟩
    · try rw [translateArrayBranch]
      all_goals simp [DocType.name]
    · exact absurd rfl hlen
    · try rw [translateArrayBranch]
      all_goals simp [DocType.name]
  · intro e htm
    simp only [DocType.templates] at htm
    subst htm
    rw [translateType.eq_def]
    simp only [DocType.name, b1, b2, Bool.false_eq_true, if_false, beq_self_eq_true, if_true]
    try rw [translateArrayBranch]
    cases h : translateType cnm e parent cb σ with
    | ok r => simp [h, Except.map, Except.instMonad, Except.bind]
    | error e2 => simp [h, Except.map, Except.instMonad, Except.bind]

/-- C6 (counterexample to the claim as stated): an `Array` node with
*zero* template parameters also fails (though zero is not more than
one), and an `Array` node with exactly one template parameter does not
always succeed — it fails whenever translating the element fails, for
example when the element is itself a two-template `Array`. -/
theorem translateType_array_shape_counterexample :
    (arrZero.templates = some ([] : List DocType))
    ∧ (translateType seededClassNameMap arrZero pageParent defaultNameCB emptyRegistries
      = .error ("Array (Array from Page) has more than 1 dimension. Panic."))
    ∧ (arrNested.templates.map List.length = some 1)
    ∧ (translateType seededClassNameMap arrNested pageParent defaultNameCB emptyRegistries
      = .error ("Array (Array from Page) has more than 1 dimension. Panic.")) :=
  ⟨rfl, rfl, rfl, rfl⟩

/-- C6 (witness): the amended theorem applied to a one-template
`Array` of `string` and to the zero-template `Array`. -/
theorem translateType_array_shape_witness :
    (translateType seededClassNameMap arrString pageParent defaultNameCB emptyRegistries
      = (translateType seededClassNameMap stringType pageParent defaultNameCB emptyRegistries).map
          (fun r => (some ("IEnumerable<" ++ jstr r.1 ++ ">"), r.2)))
    ∧ (translateType seededClassNameMap arrZero pageParent defaultNameCB emptyRegistries
      = .error ("Array (" ++ arrZero.name ++ " from " ++ pageParent.name
          ++ ") has more than 1 dimension. Panic.")) :=
  ⟨(translateType_array_shape seededClassNameMap arrString pageParent defaultNameCB
      emptyRegistries rfl (by decide) (by decide) rfl).2.2 stringType rfl,
   (translateType_array_shape seededClassNameMap arrZero pageParent defaultNameCB
      emptyRegistries rfl (by decide) (by decide) rfl).2.1 [] rfl (by decide)⟩

/-- C2: on a method `foo(id, value)` whose second parameter is the
union `string|int` (which the translator resolves to `null`), rendering
emits exactly the two overloads `(string id, string valueString)` and
`(string id, int valueInt)` in declared variant order with no filtered
overload when `value` is required, and exactly those two plus the
additional `(string id)` overload omitting the union parameter when
`value` is optional. -/
theorem unionParam_overload_explosion :
    ((renderMethod seededClassNameMap (fooMethod true) pageParent
        (toMemberName (fooMethod true) false) emptyRegistries).map
      (fun r => methodSignatures r.1)
      = .ok ["void Foo(string id, string valueString);", "void Foo(string id, int valueInt);"])
    ∧ ((renderMethod seededClassNameMap (fooMethod false) pageParent
        (toMemberName (fooMethod false) false) emptyRegistries).map
      (fun r => methodSignatures r.1)
      = .ok ["void Foo(string id, string valueString);", "void Foo(string id, int valueInt);",
          "void Foo(string id);"]) :=
  ⟨rfl, rfl⟩

/-- A parameter name that does not start with `@` keeps that property
when a suffix not starting with `@` is appended. -/
theorem strStartsWith_at_append (nm su : String)
    (h1 : strStartsWith nm ("@") = false) (h2 : strStartsWith su ("@") = false) :
    strStartsWith (nm ++ su) ("@") = false := by
  obtain ⟨l⟩ := nm
  obtain ⟨m⟩ := su
  simp only [strStartsWith] at h1 h2 ⊢
  cases l with
  | nil => simpa using h2
  | cons c cs => simp_all [List.isPrefixOf]

/-- Appending a nonempty suffix changes a string. -/
theorem append_path_ne (nm : String) : nm ++ "Path" ≠ nm := by
  intro h
  have hlen := congrArg String.length h
  rw [String.length_append] at hlen
  have h4 : ("Path" : String).length = 4 := rfl
  rw [h4] at hlen
  omega

/-- C8: a parameter of the `string`-or-`path` union shape always renders
as exactly two sibling parameters — the parameter name itself and the
same name with a `Path` suffix — appended to the argument list, and is
never exploded into per-variant overloads: the exploded-argument list
and the registries are untouched. -/
theorem stringOrPath_two_sibling_params (cnm : List (String × String)) (member : Member)
    (parent : Parent) (st : ArgState) (arg : Member)
    (hexpr : arg.type.expression = some ("[string]|[path]"))
    (hopt : arg.name ≠ "options")
    (hev : arg.name ≠ "event")
    (hat : strStartsWith arg.name ("@") = false)
    (hf1 : mapGet st.paramDocs arg.name = none)
    (hf2 : mapGet st.paramDocs (arg.name ++ "Path") = none) :
    (processArg cnm member parent st arg).map (fun s => (s.args, s.explodedArgs, s.regs)) =
      .ok (st.args ++
        ["string " ++ arg.name ++ " = null" ++ (if arg.required then "" else " = default"),
         "string " ++ arg.name ++ "Path = null" ++ (if arg.required then "" else " = default")],
        st.explodedArgs, st.regs) := by
  obtain ⟨kd, nm, al, asy, req, ty, ag, sp⟩ := arg
  obtain ⟨tn, te, tu, tt, tp, ta, tr⟩ := ty
  simp only [Member.type, DocType.expression] at hexpr
  subst hexpr
  simp only [Member.name] at hopt hev hat hf1 hf2
  have hopt2 : (nm == "options") = false := by simp [hopt]
  rw [processArg.eq_def]
  simp only [Member.name, hopt2, Bool.false_eq_true, if_false]
  have hT : toArgumentName nm = nm := by simp [toArgumentName, hev]
  simp only [processArgRest, Member.type, DocType.expression, Member.name, Member.spec,
    Member.required, beq_self_eq_true, if_true, hT]
  have hP : strStartsWith (nm ++ "Path") ("@") = false :=
    strStartsWith_at_append nm ("Path") hat (by decide)
  have hg : ∀ v : List String,
      mapGet (mapSet st.paramDocs nm v) (nm ++ "Path") = mapGet st.paramDocs (nm ++ "Path") :=
    fun v => mapGet_mapSet_ne _ _ _ _ (append_path_ne nm)
  cases sp with
  | none =>
    simp [pushArg, nullableTypes, Member.required, Except.map]
    constructor <;> simp [String.append_assoc]
  | some d =>
    simp [pushArg, nullableTypes, Member.required, Except.map, addParamsDoc, hat, hP,
      hf1, hf2, hg, Except.instMonad, Except.bind]
    constructor <;> simp [String.append_assoc]

/-- C8 (witness): the theorem applied to the concrete `script`
parameter. -/
theorem stringOrPath_two_sibling_params_witness :
    (processArg seededClassNameMap (fooMethod true) pageParent (emptyArgState emptyRegistries)
        scriptParam).map (fun s => (s.args, s.explodedArgs, s.regs)) =
      .ok ((emptyArgState emptyRegistries).args ++
        ["string " ++ scriptParam.name ++ " = null"
            ++ (if scriptParam.required then "" else " = default"),
         "string " ++ scriptParam.name ++ "Path = null"
            ++ (if scriptParam.required then "" else " = default")],
        (emptyArgState emptyRegistries).explodedArgs, (emptyArgState emptyRegistries).regs) :=
  stringOrPath_two_sibling_params seededClassNameMap (fooMethod true) pageParent
    (emptyArgState emptyRegistries) scriptParam rfl (by decide) (by decide) (by decide) rfl rfl

/-- Finding the first index satisfying a predicate in a decomposed list. -/
theorem findIdx?_first_decomp {α : Type} (p : α → Bool) (pre suf : List α) (x : α)
    (hpre : ∀ a ∈ pre, p a = false) (hx : p x = true) :
    (pre ++ x :: suf).findIdx? p = some pre.length := by
  induction pre with
  | nil => simp [List.findIdx?_cons, hx]
  | cons a as ih =>
    have ha := hpre a (List.mem_cons_self a as)
    have ih2 := ih (fun b hb => hpre b (List.mem_cons_of_mem a hb))
    simp [List.findIdx?_cons, ha, ih2]

/-- A predicate false everywhere yields no index. -/
theorem findIdx?_none_of_all {α : Type} (p : α → Bool) (l : List α)
    (h : ∀ a ∈ l, p a = false) : l.findIdx? p = none := by
  induction l with
  | nil => simp
  | cons a as ih =>
    have ha := h a (List.mem_cons_self a as)
    have ih2 := ih (fun b hb => h b (List.mem_cons_of_mem a hb))
    simp [List.findIdx?_cons, ha, ih2]


/-- C10 (amended): the synthesized `Func<Task> action = default`
parameter — absent from the source member — is inserted immediately
before the first optional argument (the first one whose rendering
contains `=`) when one exists; when no argument is optional it is
inserted immediately before the *last* argument (splice at index -1),
and into the empty argument list as the sole argument.  The concrete
`waitForThing(a, c?)` rendering shows the insertion before the first
optional argument of the emitted signature. -/
theorem waitForAction_insertion :
    (∀ pre suf : List String, ∀ x : String,
      (∀ a ∈ pre, (a.data.contains '=') = false) → (x.data.contains '=') = true →
      insertWaitForAction (pre ++ x :: suf) = pre ++ [waitForActionArg] ++ x :: suf)
    ∧ (∀ pre : List String, ∀ x : String,
      (∀ a ∈ pre ++ [x], (a.data.contains '=') = false) →
      insertWaitForAction (pre ++ [x]) = pre ++ [waitForActionArg, x])
    ∧ insertWaitForAction [] = [waitForActionArg]
    ∧ ((renderMethod seededClassNameMap waitForThing2Method pageParent
        (toMemberName waitForThing2Method false) emptyRegistries).map
      (fun r => methodSignatures r.1)
      = .ok ["Task WaitForThingAsync(string a, Func<Task> action = default, string c = default);"]) := by
  refine ⟨?_, ?_, rfl, rfl⟩
  · intro pre suf x hpre hx
    rw [insertWaitForAction, findIdx?_first_decomp _ pre suf x hpre hx]
    simp only [List.take_left, List.drop_left]
  · intro pre x hall
    rw [insertWaitForAction, findIdx?_none_of_all _ _ hall]
    have hlen : (pre ++ [x]).length - 1 = pre.length := by simp
    simp only [hlen, List.take_left, List.drop_left]
    simp

/-- C10 (counterexample to the claim as stated): on the asynchronous
`waitForThing(a, b)` whose parameters are all required, the emitted
signature has no optional argument at all, yet the synthesized action
parameter appears — spliced between the two required parameters, before
the *last* one rather than before any first optional argument. -/
theorem waitForAction_insertion_counterexample :
    ((renderMethod seededClassNameMap waitForThingMethod pageParent
        (toMemberName waitForThingMethod false) emptyRegistries).map
      (fun r => methodSignatures r.1)
      = .ok ["Task WaitForThingAsync(string a, Func<Task> action = default, string b);"])
    ∧ (("string a").data.contains '=') = false
    ∧ (("string b").data.contains '=') = false :=
  ⟨rfl, rfl, rfl⟩

/-- C10 (witness): the amended theorem applied to a one-required,
one-optional rendered argument list. -/
theorem waitForAction_insertion_witness :
    insertWaitForAction (["string a"] ++ "string c = default" :: []) =
      ["string a"] ++ [waitForActionArg] ++ "string c = default" :: [] :=
  waitForAction_insertion.1 ["string a"] [] ("string c = default")
    (by intro a ha; simp at ha; subst ha; decide) (by decide)

/-- C7: a zero-argument synchronous method whose translated return type is
a non-void, non-template type (and whose display name does not begin with
Get or As) renders as a single read-only property declaration, while the
same member marked asynchronous renders as a single callable method whose
return type is wrapped in Task<...>, never as a property. -/
theorem zeroArg_getter_to_property (cnm : List (String × String)) (p : Parent) (σ : Registries)
    (mname : String) (rt : DocType) (t : String) (σ1 σ2 : Registries)
    (hobj : rt.name ≠ "Object") (harr2 : rt.name ≠ "Array")
    (hsync : translateType cnm rt p
      (resolveCB (Member.mk ("method") mname none false true rt [] none) p) σ = .ok (some t, σ1))
    (hasync : translateType cnm rt p
      (resolveCB (Member.mk ("method") mname none true true rt [] none) p) σ = .ok (some t, σ2))
    (hvoid : t ≠ "void") (hT : t ≠ "T")
    (hg0 : strStartsWith (toMemberName (Member.mk ("method") mname none false true rt [] none) false) ("Get") = false)
    (ha0 : strStartsWith (toMemberName (Member.mk ("method") mname none false true rt [] none) false) ("As") = false)
    (hg1 : strStartsWith (toMemberName (Member.mk ("method") mname none true true rt [] none) false) ("Get") = false)
    (ha1 : strStartsWith (toMemberName (Member.mk ("method") mname none true true rt [] none) false) ("As") = false)
    (hwf : includesStr (toMemberName (Member.mk ("method") mname none true true rt [] none) false) ("WaitFor") = false) :
    (renderMethod cnm (Member.mk ("method") mname none false true rt [] none) p
        (toMemberName (Member.mk ("method") mname none false true rt [] none) false) σ
      = .ok ([t ++ " " ++ toMemberName (Member.mk ("method") mname none false true rt [] none) false
          ++ " \x7b get; \x7d"], σ1))
    ∧ (renderMethod cnm (Member.mk ("method") mname none true true rt [] none) p
        (toMemberName (Member.mk ("method") mname none true true rt [] none) false) σ
      = .ok (["Task<" ++ t ++ "> "
          ++ toMemberName (Member.mk ("method") mname none true true rt [] none) false ++ "();"], σ2)) := by
  have b1 : (rt.name == "Object") = false := by simp [hobj]
  have b2 : (rt.name == "Array") = false := by simp [harr2]
  have bv : (some t == some ("void")) = false := by simp [hvoid]
  have bT : (some t == some ("T")) = false := by simp [hT]
  constructor
  · simp [renderMethod, Member.type, Member.name, Member.argsArray, Member.spec, Member.async,
      Member.kind, Member.aliasName, b1, b2, hsync, bv, bT, hg0, ha0, truthyOpt,
      Except.instMonad, Except.bind, jstr]
    intro h
    exact absurd h hvoid
  · simp [renderMethod, Member.type, Member.name, Member.argsArray, Member.spec, Member.async,
      Member.kind, Member.aliasName, b1, b2, hasync, bv, bT, hg1, ha1, hwf, truthyOpt,
      Except.instMonad, Except.bind, jstr, sortOptionsToBack, processArgList, hT, hvoid,
      renderXmlDoc]
    have eI : ", ".intercalate ([] : List String) = "" := rfl
    have eOpen : ("(" : String) ++ ");" = "();" := rfl
    have eGt : (">" : String) ++ " " = "> " := rfl
    rw [eI, String.append_empty, String.append_assoc _ ("(") (");"), eOpen,
      String.append_assoc ("Task<" ++ t) (">") (" "), eGt]
    rfl

/-- C7 (witness): the zero-argument method `title` returning `string` on
class Page renders as the property `string Title \x7b get; \x7d` when
synchronous and as the method `Task<string> TitleAsync();` when
asynchronous. -/
theorem zeroArg_getter_to_property_witness :
    ("string" : String) ≠ "void" ∧
    ((renderMethod seededClassNameMap (Member.mk ("method") ("title") none false true stringType [] none)
        pageParent
        (toMemberName (Member.mk ("method") ("title") none false true stringType [] none) false)
        emptyRegistries
      = .ok (["string" ++ " "
          ++ toMemberName (Member.mk ("method") ("title") none false true stringType [] none) false
          ++ " \x7b get; \x7d"], emptyRegistries))
    ∧ (renderMethod seededClassNameMap (Member.mk ("method") ("title") none true true stringType [] none)
        pageParent
        (toMemberName (Member.mk ("method") ("title") none true true stringType [] none) false)
        emptyRegistries
      = .ok (["Task<" ++ "string" ++ "> "
          ++ toMemberName (Member.mk ("method") ("title") none true true stringType [] none) false
          ++ "();"], emptyRegistries))) :=
  ⟨by decide, zeroArg_getter_to_property seededClassNameMap pageParent emptyRegistries
    ("title") stringType ("string") emptyRegistries emptyRegistries
    (by decide) (by decide) rfl rfl (by decide) (by decide) rfl rfl rfl rfl rfl⟩

/-- C3 (amended): for a named union past the shortcuts and fixed special
shapes, translating it stores under the union name the verbatim variant
names — quotes included — in declared order; translating again from the
resulting registries returns the same name and leaves the registries
unchanged (idempotence); and the de-quoting happens only at render time:
every literal line pair `renderEnum` emits carries the de-quoted literal
in its `EnumMember` value attribute. -/
theorem enumRegistry_verbatim_idempotent (cnm : List (String × String)) (t u0 : DocType)
    (urest : List DocType) (parent : Parent) (cb : NameCB) (σ : Registries)
    (h1 : t.expression ≠ some ("[null]|[Error]"))
    (h2 : t.expression ≠ some ("[boolean]|\"mixed\""))
    (h3 : t.expression ≠ some ("[string]|[Buffer]"))
    (h4 : t.expression ≠ some ("[string]|[float]"))
    (h5 : t.expression ≠ some ("[string]|[float]|[boolean]"))
    (h6 : t.expression ≠ some ("[float]|\"raf\""))
    (hu : t.union = some (u0 :: urest))
    (hnull : ¬(u0.name = "null" ∧ urest.length = 1))
    (harr : ∀ u1, urest = [u1] → u1.name ≠ "Array")
    (hname : ¬(t.name = "")) :
    (∃ σ1, translateType cnm t parent cb σ = .ok (some t.name, σ1)
      ∧ mapGet σ1.enumTypes t.name = some ((u0 :: urest).map DocType.name)
      ∧ translateType cnm t parent cb σ1 = .ok (some t.name, σ1))
    ∧ (∀ l lines, renderEnumLiteralLines l = .ok lines →
        ∃ nm, lines = ["[EnumMember(Value = \"" ++ dequote l ++ "\")]", nm ++ ","]) := by
  constructor
  · refine ⟨{ σ with enumTypes := mapSet σ.enumTypes t.name ((u0 :: urest).map DocType.name) },
      ?_, ?_, ?_⟩
    · rw [translateType_plain_union cnm t u0 urest parent cb σ h1 h2 h3 h4 h5 h6 hu hnull harr]
      simp [hname]
    · simp [mapGet_mapSet_self]
    · rw [translateType_plain_union cnm t u0 urest parent cb _ h1 h2 h3 h4 h5 h6 hu hnull harr]
      simp [hname, mapSet_mapSet_same]
  · intro l lines h
    simp only [renderEnumLiteralLines, Except.instMonad, Except.bind] at h
    split at h
    · cases h
    · rename_i v hv
      cases h
      exact ⟨String.join v, rfl⟩

/-- C3 (counterexample to the claim as stated): translating the
literal union `E: "load"|"save"` stores the quoted variant names, which
differ from their de-quoted forms, so the registry entry does not equal
the de-quoted names; and the two-variant union `Union[null, "load"]` is
unwrapped by the null rule before the enum check and registers nothing
at all, against the "optionally preceded by a null marker" reading. -/
theorem enumRegistry_verbatim_idempotent_counterexample :
    ((translateType seededClassNameMap enumE pageParent defaultNameCB emptyRegistries).map
        (fun r => (r.1, r.2.enumTypes))
      = .ok (some ("E"), [("E", ["\"load\"", "\"save\""])]))
    ∧ (["\"load\"", "\"save\""] : List String) ≠ (["\"load\"", "\"save\""]).map dequote
    ∧ ((translateType seededClassNameMap nullLoadUnion pageParent defaultNameCB emptyRegistries).map
        (fun r => (r.1, r.2.enumTypes))
      = .ok (some ("\"load\""), [])) :=
  ⟨rfl, by decide, rfl⟩

/-- C3 (witness): the amended theorem applied to the literal union
`E: "load"|"save"` from empty registries. -/
theorem enumRegistry_verbatim_idempotent_witness :
    ¬(enumE.name = "") ∧
    ((∃ σ1, translateType seededClassNameMap enumE pageParent defaultNameCB emptyRegistries
        = .ok (some enumE.name, σ1)
      ∧ mapGet σ1.enumTypes enumE.name = some (([quotedLoad, quotedSave]).map DocType.name)
      ∧ translateType seededClassNameMap enumE pageParent defaultNameCB σ1
        = .ok (some enumE.name, σ1))
    ∧ (∀ l lines, renderEnumLiteralLines l = .ok lines →
        ∃ nm, lines = ["[EnumMember(Value = \"" ++ dequote l ++ "\")]", nm ++ ","])) :=
  ⟨by decide, enumRegistry_verbatim_idempotent seededClassNameMap enumE quotedLoad [quotedSave]
    pageParent defaultNameCB emptyRegistries (by decide) (by decide) (by decide) (by decide)
    (by decide) (by decide) rfl (by decide) (fun u1 h => by cases h; decide) (by decide)⟩

/-- A fresh, unreserved candidate is accepted immediately by the naming
loop, registering the type under it. -/
theorem gndLoop_fresh (t : DocType) (stack : List String) (a : String) (σ : Registries)
    (hadj : adjustCandidate a = a)
    (hfresh : mapGet σ.modelTypes a = none) (hv : a ≠ "Value") :
    gndLoop t stack a σ = .ok (a, { σ with modelTypes := mapSet σ.modelTypes a t }) := by
  rw [gndLoop.eq_def]
  simp [hadj, hfresh, hv]

/-- A candidate owned by a structurally different type makes the naming
loop pop the next lexical-chain element and retry with it prepended. -/
theorem gndLoop_conflict_step (t : DocType) (n : String) (rest : List String) (a : String)
    (σ : Registries) (hadj : adjustCandidate a = a)
    (pt : DocType) (hget : mapGet σ.modelTypes a = some pt) (hdiff : typesDiffer t pt = true) :
    gndLoop t (n :: rest) a σ = gndLoop t rest (n ++ a) σ := by
  rw [gndLoop.eq_def]
  simp [hadj, hget, hdiff]

/-- For a `config` property member of a non-enum, non-structureless
anonymous type, `generateNameDefault` runs the naming loop with candidate
`Config` and the parent name as the only fallback. -/
theorem generateNameDefault_config (t : DocType) (pname : String) (σ : Registries)
    (hx : t.expression ≠ some ("[Object]")) (hu : t.union = none) :
    generateNameDefault (configMember t) ("config") t (Parent.mk pname none) σ
      = gndLoop t [pname] ("Config") σ := by
  have bx : (t.expression == some ("[Object]")) = false := by simp [hx]
  have ttc : toTitleCase ("config") = "Config" := rfl
  simp [generateNameDefault, configMember, Member.kind, Member.aliasName, Member.name,
    generateEnumNameIfApplicable, hu, bx, truthyOpt, aliasOrName, parentAliasOrName,
    ttc]

/-- C4: two structurally different anonymous object types (differing
truthy expressions) whose naive candidate name collides on `Config`:
the first-translated one receives and keeps the plain name `Config` in
the model-type registry — it is still mapped to it after the second
registration — and the second receives the parent-prefixed name
(`BetaConfig`); swapping the translation order swaps which type gets
the plain name, so name synthesis is order-dependent. -/
theorem anonymousObject_naming_order_dependent (t1 t2 : DocType) (σ : Registries)
    (he1 : truthyOpt t1.expression = true) (he2 : truthyOpt t2.expression = true)
    (hne : t1.expression ≠ t2.expression)
    (hx1 : t1.expression ≠ some ("[Object]")) (hx2 : t2.expression ≠ some ("[Object]"))
    (hu1 : t1.union = none) (hu2 : t2.union = none)
    (hC : mapGet σ.modelTypes ("Config") = none)
    (hA : mapGet σ.modelTypes ("AlphaConfig") = none)
    (hB : mapGet σ.modelTypes ("BetaConfig") = none) :
    (generateNameDefault (configMember t1) ("config") t1 (Parent.mk ("Alpha") none) σ
      = .ok ("Config", { σ with modelTypes := mapSet σ.modelTypes ("Config") t1 }))
    ∧ (generateNameDefault (configMember t2) ("config") t2 (Parent.mk ("Beta") none)
        { σ with modelTypes := mapSet σ.modelTypes ("Config") t1 }
      = .ok ("BetaConfig", { σ with modelTypes :=
          (mapSet (mapSet σ.modelTypes ("Config") t1) ("BetaConfig") t2) }))
    ∧ mapGet (mapSet (mapSet σ.modelTypes ("Config") t1) ("BetaConfig") t2) ("Config") = some t1
    ∧ (generateNameDefault (configMember t2) ("config") t2 (Parent.mk ("Beta") none) σ
      = .ok ("Config", { σ with modelTypes := mapSet σ.modelTypes ("Config") t2 }))
    ∧ (generateNameDefault (configMember t1) ("config") t1 (Parent.mk ("Alpha") none)
        { σ with modelTypes := mapSet σ.modelTypes ("Config") t2 }
      = .ok ("AlphaConfig", { σ with modelTypes :=
          (mapSet (mapSet σ.modelTypes ("Config") t2) ("AlphaConfig") t1) }))
    ∧ mapGet (mapSet (mapSet σ.modelTypes ("Config") t2) ("AlphaConfig") t1) ("Config")
        = some t2 := by
  have hadjC : adjustCandidate ("Config") = "Config" := rfl
  have hadjBC : adjustCandidate ("BetaConfig") = "BetaConfig" := rfl
  have hadjAC : adjustCandidate ("AlphaConfig") = "AlphaConfig" := rfl
  have hBC : ("Beta" : String) ++ "Config" = "BetaConfig" := rfl
  have hAC : ("Alpha" : String) ++ "Config" = "AlphaConfig" := rfl
  have hd21 : typesDiffer t2 t1 = true := by
    have b : (t2.expression == t1.expression) = false := by
      simp only [beq_eq_false_iff_ne, ne_eq]
      exact fun h => hne (Eq.symm h)
    simp [typesDiffer, he1, he2, bne, b]
  have hd12 : typesDiffer t1 t2 = true := by
    have b : (t1.expression == t2.expression) = false := by simp [hne]
    simp [typesDiffer, he1, he2, bne, b]
  refine ⟨?_, ?_, ?_, ?_, ?_, ?_⟩
  · rw [generateNameDefault_config t1 ("Alpha") σ hx1 hu1]
    exact gndLoop_fresh t1 _ _ σ hadjC hC (by decide)
  · rw [generateNameDefault_config t2 ("Beta") _ hx2 hu2]
    rw [gndLoop_conflict_step t2 ("Beta") [] ("Config") _ hadjC t1
      (by simp [mapGet_mapSet_self]) hd21, hBC]
    have hB1 : mapGet (mapSet σ.modelTypes ("Config") t1) ("BetaConfig") = none := by
      rw [mapGet_mapSet_ne _ _ _ _ (by decide)]
      exact hB
    exact gndLoop_fresh t2 _ _ _ hadjBC hB1 (by decide)
  · rw [mapGet_mapSet_ne _ _ _ _ (by decide)]
    exact mapGet_mapSet_self _ _ _
  · rw [generateNameDefault_config t2 ("Beta") σ hx2 hu2]
    exact gndLoop_fresh t2 _ _ σ hadjC hC (by decide)
  · rw [generateNameDefault_config t1 ("Alpha") _ hx1 hu1]
    rw [gndLoop_conflict_step t1 ("Alpha") [] ("Config") _ hadjC t2
      (by simp [mapGet_mapSet_self]) hd12, hAC]
    have hA1 : mapGet (mapSet σ.modelTypes ("Config") t2) ("AlphaConfig") = none := by
      rw [mapGet_mapSet_ne _ _ _ _ (by decide)]
      exact hA
    exact gndLoop_fresh t1 _ _ _ hadjAC hA1 (by decide)
  · rw [mapGet_mapSet_ne _ _ _ _ (by decide)]
    exact mapGet_mapSet_self _ _ _

/-- C4 (witness): the order-dependence theorem applied to two concrete
anonymous object shapes with expressions `A` and `B` from empty
registries. -/
theorem anonymousObject_naming_order_dependent_witness :
    (objWithExpr ("A")).expression ≠ (objWithExpr ("B")).expression ∧
    ((generateNameDefault (configMember (objWithExpr ("A"))) ("config") (objWithExpr ("A"))
        (Parent.mk ("Alpha") none) emptyRegistries
      = .ok ("Config", { emptyRegistries with modelTypes :=
          (mapSet emptyRegistries.modelTypes ("Config") (objWithExpr ("A"))) }))
    ∧ (generateNameDefault (configMember (objWithExpr ("B"))) ("config") (objWithExpr ("B"))
        (Parent.mk ("Beta") none)
        { emptyRegistries with modelTypes :=
          (mapSet emptyRegistries.modelTypes ("Config") (objWithExpr ("A"))) }
      = .ok ("BetaConfig", { emptyRegistries with modelTypes :=
          (mapSet (mapSet emptyRegistries.modelTypes ("Config") (objWithExpr ("A")))
            ("BetaConfig") (objWithExpr ("B"))) }))
    ∧ mapGet (mapSet (mapSet emptyRegistries.modelTypes ("Config") (objWithExpr ("A")))
        ("BetaConfig") (objWithExpr ("B"))) ("Config") = some (objWithExpr ("A"))
    ∧ (generateNameDefault (configMember (objWithExpr ("B"))) ("config") (objWithExpr ("B"))
        (Parent.mk ("Beta") none) emptyRegistries
      = .ok ("Config", { emptyRegistries with modelTypes :=
          (mapSet emptyRegistries.modelTypes ("Config") (objWithExpr ("B"))) }))
    ∧ (generateNameDefault (configMember (objWithExpr ("A"))) ("config") (objWithExpr ("A"))
        (Parent.mk ("Alpha") none)
        { emptyRegistries with modelTypes :=
          (mapSet emptyRegistries.modelTypes ("Config") (objWithExpr ("B"))) }
      = .ok ("AlphaConfig", { emptyRegistries with modelTypes :=
          (mapSet (mapSet emptyRegistries.modelTypes ("Config") (objWithExpr ("B")))
            ("AlphaConfig") (objWithExpr ("A"))) }))
    ∧ mapGet (mapSet (mapSet emptyRegistries.modelTypes ("Config") (objWithExpr ("B")))
        ("AlphaConfig") (objWithExpr ("A"))) ("Config") = some (objWithExpr ("B"))) :=
  ⟨by decide, anonymousObject_naming_order_dependent (objWithExpr ("A")) (objWithExpr ("B"))
    emptyRegistries rfl rfl (by decide) (by decide) (by decide) rfl rfl rfl rfl rfl⟩

/-- The naming loop never replaces a registry entry with a structurally
different type: an entry present before a successful run is afterwards
either unchanged or overwritten by the new type, and in the latter case
the two are structurally identical (`typesDiffer` is false). -/
theorem gndLoop_preserves (t : DocType) (stack : List String) (a : String) (σ : Registries)
    (r : String) (σ1 : Registries) (h : gndLoop t stack a σ = .ok (r, σ1))
    (k : String) (v : DocType) (hk : mapGet σ.modelTypes k = some v) :
    mapGet σ1.modelTypes k = some v
    ∨ (typesDiffer t v = false ∧ mapGet σ1.modelTypes k = some t) := by
  induction stack generalizing a with
  | nil =>
    rw [gndLoop.eq_def] at h
    simp only [] at h
    split at h
    · cases h
    · rename_i hnc
      cases h
      by_cases hka : k = adjustCandidate a
      · subst hka
        rw [hk] at hnc
        simp only [Bool.or_eq_true, not_or] at hnc
        refine Or.inr ⟨by simpa using hnc.1, ?_⟩
        simp [mapGet_mapSet_self]
      · exact Or.inl (by simpa [mapGet_mapSet_ne _ _ _ _ (fun h2 => hka h2)] using hk)
  | cons n rest ih =>
    rw [gndLoop.eq_def] at h
    simp only [] at h
    split at h
    · exact ih _ h
    · rename_i hnc
      cases h
      by_cases hka : k = adjustCandidate a
      · subst hka
        rw [hk] at hnc
        simp only [Bool.or_eq_true, not_or] at hnc
        refine Or.inr ⟨by simpa using hnc.1, ?_⟩
        simp [mapGet_mapSet_self]
      · exact Or.inl (by simpa [mapGet_mapSet_ne _ _ _ _ (fun h2 => hka h2)] using hk)

/-- C9: the model-type registry is insert-only.  `registerModelType`
preserves every existing entry exactly, it is the identity under the
primitive escape names `object`, `string` and `int`, and a successful
run of the name synthesizer `generateNameDefault` leaves every existing
entry either unchanged or replaced by the new type only when the two
are structurally identical (`typesDiffer` is false). -/
theorem modelRegistry_insert_only (nm : String) (t : DocType) (σ : Registries)
    (m : Member) (name : String) (p : Parent) (r : String) (σ1 : Registries) :
    (∀ k v, mapGet σ.modelTypes k = some v →
      mapGet (registerModelType nm t σ).modelTypes k = some v)
    ∧ (∀ n, n ∈ (["object", "string", "int"] : List String) → registerModelType n t σ = σ)
    ∧ (generateNameDefault m name t p σ = .ok (r, σ1) →
      ∀ k v, mapGet σ.modelTypes k = some v →
        mapGet σ1.modelTypes k = some v
        ∨ (typesDiffer t v = false ∧ mapGet σ1.modelTypes k = some t)) := by
  refine ⟨?_, ?_, ?_⟩
  · intro k v hk
    rw [registerModelType]
    split
    · exact hk
    · split
      · exact hk
      · rename_i hnone
        by_cases hkn : k = nm
        · subst hkn
          rw [hk] at hnone
          simp at hnone
        · simpa [mapGet_mapSet_ne _ _ _ _ (fun h2 => hkn h2)] using hk
  · intro n hn
    simp only [List.mem_cons, List.not_mem_nil, or_false] at hn
    rcases hn with rfl | rfl | rfl <;> rfl
  · intro h k v hk
    rw [generateNameDefault] at h
    by_cases c1 : (t.properties.isNone && t.templates.isNone && t.union.isNone
        && t.expression == some ("[Object]")) = true
    · simp only [c1, if_true] at h
      cases h
      exact Or.inl hk
    · rw [Bool.not_eq_true] at c1
      simp only [c1, Bool.false_eq_true, if_false] at h
      by_cases c2 : (!truthyOpt (generateEnumNameIfApplicable t)) = true
      · simp only [c2, if_true] at h
        by_cases c3 : (m.kind == "method" || m.kind == "property") = true
        · simp only [c3, if_true] at h
          by_cases c4 : (toTitleCase name == toTitleCase (aliasOrName m)) = true
          · simp only [c4, if_true, List.reverse_cons, List.reverse_nil, List.nil_append,
              List.cons_append, List.append_nil] at h
            exact gndLoop_preserves _ _ _ _ _ _ h k v hk
          · rw [Bool.not_eq_true] at c4
            simp only [c4, Bool.false_eq_true, if_false, List.reverse_cons, List.reverse_nil,
              List.nil_append, List.cons_append, List.append_nil] at h
            exact gndLoop_preserves _ _ _ _ _ _ h k v hk
        · rw [Bool.not_eq_true] at c3
          simp only [c3, Bool.false_eq_true, if_false] at h
          by_cases c5 : (m.kind == "event") = true
          · simp only [c5, if_true] at h
            cases h
            exact Or.inl hk
          · rw [Bool.not_eq_true] at c5
            simp only [c5, Bool.false_eq_true, if_false] at h
            cases h
            exact Or.inl hk
      · rw [Bool.not_eq_true] at c2
        simp only [c2, Bool.false_eq_true, if_false] at h
        cases h
        exact Or.inl hk

/-- C9 (witness): the preservation statement applied to a registry
holding an unrelated entry `K` while `generateNameDefault` registers a
fresh anonymous object under `Config`. -/
theorem modelRegistry_insert_only_witness :
    mapGet (Registries.mk [("K", boolType), ("Config", objWithExpr ("A"))] [] []).modelTypes ("K")
        = some boolType
    ∨ (typesDiffer (objWithExpr ("A")) boolType = false
      ∧ mapGet (Registries.mk [("K", boolType), ("Config", objWithExpr ("A"))] [] []).modelTypes
          ("K") = some (objWithExpr ("A"))) :=
  (modelRegistry_insert_only ("Foo") (objWithExpr ("A"))
      (Registries.mk [("K", boolType)] [] [])
      (configMember (objWithExpr ("A"))) ("config") (Parent.mk ("Alpha") none)
      ("Config") (Registries.mk [("K", boolType), ("Config", objWithExpr ("A"))] [] [])).2.2
    rfl ("K") boolType rfl
